import Mathlib

/-!
Verification of the `syncs` package (tailscale.com/syncs): a shallow
embedding in Lean 4 of its four primitives — the generic `AtomicValue`,
the `WaitGroupChan` countdown latch, the channel-based `Semaphore`, and
the RWMutex-guarded `Map` — together with theorems settling the spec's
claims about them. Stateful Go code is embedded as explicit state
passing; a Go panic is embedded as `Except.error`; a blocking operation
that cannot complete in a single-caller execution is embedded as `none`.
-/

namespace Syncs

/-! ## AtomicValue

`AtomicValue[T]` wraps `sync/atomic.Value`. Its state is the type-erased
slot, which is either empty (never stored) or holds one value of `T`;
we embed it as `Option T`. The Go zero value of `T` (`var zero T`) is
passed explicitly as `zero`. `atomic.Value.CompareAndSwap` on an empty
slot succeeds only when `old` is `nil`; a `T` boxed in an interface is
never `nil`, so on the empty slot the generic wrapper always gets
`false`. -/

/-- State of `AtomicValue[T]`: the slot of the underlying `atomic.Value`. -/
abbrev AtomicValue (T : Type) := Option T

/-- `LoadOk` returns the stored value and true, or `(zero, false)` when empty. -/
def AtomicValue.LoadOk (zero : T) (v : AtomicValue T) : T × Bool :=
  match v with
  | some x => (x, true)
  | none => (zero, false)

/-- `Load` returns the first component of `LoadOk`. -/
def AtomicValue.Load (zero : T) (v : AtomicValue T) : T :=
  (AtomicValue.LoadOk zero v).1

/-- `Store` sets the slot to `x`. -/
def AtomicValue.Store (_v : AtomicValue T) (x : T) : AtomicValue T :=
  some x

/-- `Swap` stores `x` and returns the previous value, `zero` when empty. -/
def AtomicValue.Swap (zero : T) (v : AtomicValue T) (x : T) : T × AtomicValue T :=
  match v with
  | some old => (old, some x)
  | none => (zero, some x)

/-- `CompareAndSwap` delegates to `atomic.Value.CompareAndSwap`: on an
empty slot it returns false (the boxed `oldV` is never `nil`); on a
stored value it swaps exactly when the stored value equals `oldV`.
Returns the `swapped` flag and the new slot state. -/
def AtomicValue.CompareAndSwap [DecidableEq T] (v : AtomicValue T) (oldV newV : T) :
    Bool × AtomicValue T :=
  match v with
  | none => (false, none)
  | some cur => if cur = oldV then (true, some newV) else (false, some cur)

/-! ## WaitGroupChan

State: the `int64` counter `n` and whether the `done` channel has been
closed. `atomic.AddInt64` wraps around on 64-bit overflow, so the sum
is reduced into `[-2^63, 2^63)`. `close` of an already-closed channel
panics in Go; we embed that as `Except.error`. -/

/-- Reduce an integer into the `int64` range, as `atomic.AddInt64` does. -/
def wrap64 (x : Int) : Int :=
  (x + 2 ^ 63) % 2 ^ 64 - 2 ^ 63

/-- State of a `WaitGroupChan`: the counter `n` and whether `done` is closed. -/
structure WaitGroupChan where
  n : Int
  doneClosed : Bool
  deriving DecidableEq, Repr

/-- `NewWaitGroupChan` returns a latch with counter 0 and an open `done` channel. -/
def NewWaitGroupChan : WaitGroupChan :=
  { n := 0, doneClosed := false }

/-- `Add` adds `delta` to the counter; when the new value is exactly 0 it
closes `done`. Closing an already-closed channel is a Go panic,
embedded as `Except.error`. The code performs no negativity check. -/
def WaitGroupChan.Add (wg : WaitGroupChan) (delta : Int) : Except String WaitGroupChan :=
  let n := wrap64 (wg.n + delta)
  if n = 0 then
    if wg.doneClosed then
      Except.error "close of closed channel"
    else
      Except.ok { n := n, doneClosed := true }
  else
    Except.ok { n := n, doneClosed := wg.doneClosed }

/-- `Decr` is `Add (-1)`. -/
def WaitGroupChan.Decr (wg : WaitGroupChan) : Except String WaitGroupChan :=
  wg.Add (-1)

/-- `Wait` (`<-wg.done`) returns exactly when `done` has been closed. -/
def WaitGroupChan.WaitReturns (wg : WaitGroupChan) : Bool :=
  wg.doneClosed

/-! ## Semaphore

`Semaphore` is a channel of capacity `cap`; its occupancy `occ` is the
number of buffered elements. A non-blocking send succeeds iff
`occ < cap`; `Release` receives, blocking when the channel is empty
(embedded as `none` in a single-caller execution). -/

/-- State of a `Semaphore`: channel capacity and current occupancy. -/
structure Semaphore where
  cap : Nat
  occ : Nat
  deriving DecidableEq, Repr

/-- `NewSemaphore n` makes a semaphore with an empty channel of capacity `n`. -/
def NewSemaphore (n : Nat) : Semaphore :=
  { cap := n, occ := 0 }

/-- `TryAcquire`: non-blocking send; succeeds iff a buffer slot is free. -/
def Semaphore.TryAcquire (s : Semaphore) : Bool × Semaphore :=
  if s.occ < s.cap then (true, { cap := s.cap, occ := s.occ + 1 }) else (false, s)

/-- `Acquire`: blocking send; `none` when the channel is full and no
receiver exists in a single-caller execution. -/
def Semaphore.Acquire (s : Semaphore) : Option Semaphore :=
  if s.occ < s.cap then some { cap := s.cap, occ := s.occ + 1 } else none

/-- `Release`: blocking receive; `none` when the channel is empty. -/
def Semaphore.Release (s : Semaphore) : Option Semaphore :=
  if 0 < s.occ then some { cap := s.cap, occ := s.occ - 1 } else none

/-- `AcquireContext` is a `select` between the send and `<-ctx.Done()`.
`cancelled` states whether the context's `Done` channel is closed. A
branch whose communication is ready may be chosen: the send branch
returns `true` having claimed a slot; the cancel branch returns `false`
leaving the semaphore untouched. When neither is ready the call blocks
(no outcome). -/
inductive Semaphore.AcquireContextStep : Semaphore → Bool → Bool × Semaphore → Prop
  | acq {s : Semaphore} {cancelled : Bool} (h : s.occ < s.cap) :
      Semaphore.AcquireContextStep s cancelled (true, { cap := s.cap, occ := s.occ + 1 })
  | cancel {s : Semaphore} :
      Semaphore.AcquireContextStep s true (false, s)

/-- Operations a sequential client can perform on a semaphore. -/
inductive SemOp
  | acquire
  | tryAcquire
  | release
  deriving DecidableEq, Repr

/-- Apply one operation; a blocked `Acquire`/`Release` has not completed
and leaves the state unchanged. -/
def Semaphore.applyOp (op : SemOp) (s : Semaphore) : Semaphore :=
  match op with
  | SemOp.acquire => (s.Acquire).getD s
  | SemOp.tryAcquire => (s.TryAcquire).2
  | SemOp.release => (s.Release).getD s

/-- Run a sequence of operations from a state. -/
def Semaphore.runOps (ops : List SemOp) (s : Semaphore) : Semaphore :=
  match ops with
  | [] => s
  | op :: rest => Semaphore.runOps rest (Semaphore.applyOp op s)

/-! ## Map

The RWMutex-guarded `Map[K,V]`. Under the mutex every operation is a
pure function of the underlying Go map, embedded as an association
list without duplicate keys; `mak.Set` allocates the map on first write
and then assigns. -/

/-- The underlying Go map of `Map[K,V]`, as an association list. -/
abbrev GoMap (K V : Type) := List (K × V)

/-- Go map lookup `m[key]`. -/
def GoMap.lookup [DecidableEq K] : GoMap K V → K → Option V
  | [], _ => none
  | (k, v) :: rest, key => if k = key then some v else GoMap.lookup rest key

/-- Go map assignment `m[key] = val` (via `mak.Set`): overwrite when the
key is present, append otherwise. -/
def GoMap.set [DecidableEq K] : GoMap K V → K → V → GoMap K V
  | [], key, val => [(key, val)]
  | (k, v) :: rest, key, val =>
      if k = key then (key, val) :: rest else (k, v) :: GoMap.set rest key val

/-- Go `delete(m, key)`: remove the entry, a no-op when absent. -/
def GoMap.erase [DecidableEq K] : GoMap K V → K → GoMap K V
  | [], _ => []
  | (k, v) :: rest, key =>
      if k = key then GoMap.erase rest key else (k, v) :: GoMap.erase rest key

/-- `Map.Load`: RLock-protected lookup, `(zero, false)` when absent. -/
def Map.Load [DecidableEq K] (zero : V) (m : GoMap K V) (key : K) : V × Bool :=
  match m.lookup key with
  | some v => (v, true)
  | none => (zero, false)

/-- `Map.Store`: Lock-protected `mak.Set`. -/
def Map.Store [DecidableEq K] (m : GoMap K V) (key : K) (value : V) : GoMap K V :=
  m.set key value

/-- `Map.LoadOrStore`: a `Load` under the read lock, returning on a hit;
otherwise a re-check under the write lock followed by an insert when
still absent. Returns `(actual, loaded, new state)`. -/
def Map.LoadOrStore [DecidableEq K] (zero : V) (m : GoMap K V) (key : K) (value : V) :
    V × Bool × GoMap K V :=
  let l := Map.Load zero m key
  if l.2 then
    (l.1, true, m)
  else
    match m.lookup key with
    | some actual => (actual, true, m)
    | none => (value, false, m.set key value)

/-- `Map.LoadAndDelete`: write-locked lookup, deleting on a hit.
Returns `(value, loaded, new state)`. -/
def Map.LoadAndDelete [DecidableEq K] (zero : V) (m : GoMap K V) (key : K) :
    V × Bool × GoMap K V :=
  match m.lookup key with
  | some v => (v, true, m.erase key)
  | none => (zero, false, m)

/-- `Map.Delete`: write-locked `delete`. -/
def Map.Delete [DecidableEq K] (m : GoMap K V) (key : K) : GoMap K V :=
  m.erase key

/-! ## Claims about WaitGroupChan -/

/-- Claim C1: the claim (and `Add`'s own doc comment, "If the counter
goes negative, Add panics") says a negative result is a fatal error, but
the code performs no negativity check: `Add (-1)` on a fresh latch
returns normally and leaves the counter at `-1`. This evaluates the code
at the failing input. -/
theorem wgc_add_negative_no_panic :
    NewWaitGroupChan.Add (-1) = Except.ok { n := -1, doneClosed := false } := by
  rfl

/-- Claim C2, counterexample: in the sequence `Add 1; Decr; Add 1; Decr`
the counter reaches zero twice, and the second firing is not a no-op:
the final `Decr` closes the already-closed `done` channel, a panic. -/
theorem wgc_fire_twice_panics :
    (NewWaitGroupChan.Add 1 >>= WaitGroupChan.Decr >>= (fun s => s.Add 1) >>=
        WaitGroupChan.Decr) = Except.error "close of closed channel" := by
  rfl

/-- Claim C2, amended: firing the completion signal is not idempotent.
Whenever the counter reaches zero again after `done` has already been
closed, the `Add`/`Decr` call panics (close of closed channel): the
latch is single-use. -/
theorem wgc_second_fire_is_panic (wg : WaitGroupChan) (delta : Int)
    (hclosed : wg.doneClosed = true) (hzero : wrap64 (wg.n + delta) = 0) :
    wg.Add delta = Except.error "close of closed channel" := by
  simp [WaitGroupChan.Add, hzero, hclosed]

/-- Claim C2 witness: the amended theorem at the state reached by
`Add 1; Decr; Add 1` (counter 1, `done` closed) with `delta = -1`. -/
theorem wgc_second_fire_is_panic_witness :
    WaitGroupChan.Add { n := 1, doneClosed := true } (-1) =
      Except.error "close of closed channel" :=
  wgc_second_fire_is_panic { n := 1, doneClosed := true } (-1) rfl (by decide)

/-- Claim C10: `Add 0` on a freshly constructed `WaitGroupChan` leaves the
counter at 0 and immediately closes `done` — `Wait` returns and the done
channel reports completion — with no prior positive `Add` or decrement. -/
theorem wgc_add_zero_fires :
    NewWaitGroupChan.Add 0 = Except.ok { n := 0, doneClosed := true } ∧
    WaitGroupChan.WaitReturns { n := 0, doneClosed := true } = true := by
  exact ⟨rfl, rfl⟩

/-! ## Claims about AtomicValue -/

/-- Claim C3, counterexample: on the never-stored empty state, `Load`
reports the zero value `0`, yet `CompareAndSwap 0 1` returns false and
does not update — the claim requires it to succeed there. -/
theorem cas_empty_zero_old_fails :
    AtomicValue.Load (0 : Nat) none = 0 ∧
    AtomicValue.CompareAndSwap (none : AtomicValue Nat) 0 1 = (false, none) := by
  exact ⟨rfl, rfl⟩

/-- Claim C3, amended: `CompareAndSwap old new` returns true and updates
the stored value to `new` iff a value has been stored and it equals
`old`; on the never-stored empty state it always returns false and
leaves the slot empty, even when `old` is T's zero value. -/
theorem cas_spec (T : Type) [DecidableEq T] (s : AtomicValue T) (oldV newV : T) :
    ((AtomicValue.CompareAndSwap s oldV newV).1 = true ↔ s = some oldV) ∧
    (AtomicValue.CompareAndSwap s oldV newV).2 =
      (if s = some oldV then some newV else s) := by
  cases s with
  | none => simp [AtomicValue.CompareAndSwap]
  | some cur =>
    by_cases h : cur = oldV <;> simp [AtomicValue.CompareAndSwap, h]

/-- Claim C3 witness: the amended theorem at a stored value equal to `old`. -/
theorem cas_spec_witness :
    (AtomicValue.CompareAndSwap (some (2 : Nat)) 2 7).2 = some 7 := by
  have h := (cas_spec Nat (some 2) 2 7).2
  simpa using h

/-- Claim C4: after `Store x`, `Load` returns `x` and `LoadOk` returns
`(x, true)`; on a never-stored slot, `Load` returns the zero value and
`LoadOk` returns `(zero, false)`. -/
theorem atomic_store_load (T : Type) (zero x : T) (s : AtomicValue T) :
    AtomicValue.Load zero (AtomicValue.Store s x) = x ∧
    AtomicValue.LoadOk zero (AtomicValue.Store s x) = (x, true) ∧
    AtomicValue.Load zero (none : AtomicValue T) = zero ∧
    AtomicValue.LoadOk zero (none : AtomicValue T) = (zero, false) := by
  exact ⟨rfl, rfl, rfl, rfl⟩

/-- Claim C5: `Swap x` returns the value `Load` would have returned just
before the call (the zero value when never stored), and a subsequent
`Load` returns `x`. -/
theorem atomic_swap_spec (T : Type) (zero x : T) (s : AtomicValue T) :
    (AtomicValue.Swap zero s x).1 = AtomicValue.Load zero s ∧
    AtomicValue.Load zero (AtomicValue.Swap zero s x).2 = x := by
  cases s <;> exact ⟨rfl, rfl⟩

/-! ## Claims about Map -/

/-- Assigning a key makes it look up to the assigned value. -/
theorem GoMap.lookup_set_self [DecidableEq K] (m : GoMap K V) (k : K) (v : V) :
    (m.set k v).lookup k = some v := by
  induction m with
  | nil => simp [GoMap.set, GoMap.lookup]
  | cons hd tl ih =>
    obtain ⟨k1, v1⟩ := hd
    by_cases h : k1 = k <;> simp [GoMap.set, GoMap.lookup, h, ih]

/-- Assigning a key leaves lookups at other keys unchanged. -/
theorem GoMap.lookup_set_ne [DecidableEq K] (m : GoMap K V) (k k2 : K) (v : V)
    (h : k2 ≠ k) :
    (m.set k v).lookup k2 = m.lookup k2 := by
  have hk : ¬k = k2 := fun h2 => h h2.symm
  induction m with
  | nil => simp [GoMap.set, GoMap.lookup, hk]
  | cons hd tl ih =>
    obtain ⟨k1, v1⟩ := hd
    by_cases h1 : k1 = k <;> simp [GoMap.set, GoMap.lookup, h1, hk, ih]

/-- Erasing a key makes it absent. -/
theorem GoMap.lookup_erase_self [DecidableEq K] (m : GoMap K V) (k : K) :
    (m.erase k).lookup k = none := by
  induction m with
  | nil => simp [GoMap.erase, GoMap.lookup]
  | cons hd tl ih =>
    obtain ⟨k1, v1⟩ := hd
    by_cases h : k1 = k <;> simp [GoMap.erase, GoMap.lookup, h, ih]

/-- Claim C6: `LoadOrStore` on a present key `k` with existing value `e`
returns `(e, true)` and leaves the map unchanged (literally the same
map, so no entry is modified, added, or removed); on an absent key it
returns `(v, false)`, inserts `k ↦ v`, and leaves every other key's
lookup unchanged. -/
theorem map_loadorstore_spec (K V : Type) [DecidableEq K] (zero : V)
    (m : GoMap K V) (k : K) (v : V) :
    (∀ e, m.lookup k = some e → Map.LoadOrStore zero m k v = (e, true, m)) ∧
    (m.lookup k = none →
      (Map.LoadOrStore zero m k v).1 = v ∧
      (Map.LoadOrStore zero m k v).2.1 = false ∧
      (Map.LoadOrStore zero m k v).2.2.lookup k = some v ∧
      ∀ k2, k2 ≠ k → (Map.LoadOrStore zero m k v).2.2.lookup k2 = m.lookup k2) := by
  constructor
  · intro e he
    simp [Map.LoadOrStore, Map.Load, he]
  · intro hn
    refine ⟨?_, ?_, ?_, ?_⟩ <;>
      simp [Map.LoadOrStore, Map.Load, hn, GoMap.lookup_set_self]
    intro k2 hk2
    exact GoMap.lookup_set_ne m k k2 v hk2

/-- Claim C6 witness: the present branch at `m = [(1, 10)]`, `k = 1`. -/
theorem map_loadorstore_spec_witness :
    Map.LoadOrStore (0 : Nat) [((1 : Nat), (10 : Nat))] 1 99 = (10, true, [(1, 10)]) :=
  (map_loadorstore_spec Nat Nat 0 [(1, 10)] 1 99).1 10 rfl

/-- Claim C7: `LoadAndDelete` on a present key returns `(v, true)` and
removes the entry, so a subsequent `Load` returns `(zero, false)`; on
an absent key it returns `(zero, false)` with the map unchanged. -/
theorem map_loadanddelete_spec (K V : Type) [DecidableEq K] (zero : V)
    (m : GoMap K V) (k : K) :
    (∀ v, m.lookup k = some v →
      Map.LoadAndDelete zero m k = (v, true, m.erase k) ∧
      Map.Load zero (Map.LoadAndDelete zero m k).2.2 k = (zero, false)) ∧
    (m.lookup k = none → Map.LoadAndDelete zero m k = (zero, false, m)) := by
  constructor
  · intro v hv
    constructor
    · simp [Map.LoadAndDelete, hv]
    · simp [Map.LoadAndDelete, Map.Load, hv, GoMap.lookup_erase_self]
  · intro hn
    simp [Map.LoadAndDelete, hn]

/-- Claim C7 witness: the present branch at `m = [(1, 10)]`, `k = 1`. -/
theorem map_loadanddelete_spec_witness :
    Map.LoadAndDelete (0 : Nat) [((1 : Nat), (10 : Nat))] 1 = (10, true, []) :=
  ((map_loadanddelete_spec Nat Nat 0 [(1, 10)] 1).1 10 rfl).1

/-! ## Claims about Semaphore -/

/-- One operation preserves `occ ≤ cap` and leaves `cap` unchanged. -/
theorem Semaphore.applyOp_invariant (op : SemOp) (s : Semaphore) (h : s.occ ≤ s.cap) :
    (Semaphore.applyOp op s).occ ≤ (Semaphore.applyOp op s).cap ∧
    (Semaphore.applyOp op s).cap = s.cap := by
  cases op <;>
    simp only [Semaphore.applyOp, Semaphore.Acquire, Semaphore.TryAcquire,
      Semaphore.Release] <;>
    split <;> simp <;> omega

/-- A sequence of operations preserves `occ ≤ cap` and leaves `cap` unchanged. -/
theorem Semaphore.runOps_invariant (ops : List SemOp) (s : Semaphore) (h : s.occ ≤ s.cap) :
    (Semaphore.runOps ops s).occ ≤ (Semaphore.runOps ops s).cap ∧
    (Semaphore.runOps ops s).cap = s.cap := by
  induction ops generalizing s with
  | nil => exact ⟨h, rfl⟩
  | cons op rest ih =>
    have h2 := Semaphore.applyOp_invariant op s h
    have h3 := ih (Semaphore.applyOp op s) h2.1
    exact ⟨h3.1, h3.2.trans h2.2⟩

/-- Claim C8: from any state with `occ ≤ cap`, every sequence of
operations keeps the occupancy in `[0, cap]` with the capacity fixed
(`occ : Nat` is nonnegative by type); `TryAcquire` returns true and
claims a slot iff `occ < cap`, and otherwise returns false leaving the
state unchanged; and the capacity-2 scenario runs as described:
true, true, false, then true again after one `Release`. -/
theorem semaphore_invariant_spec (s : Semaphore) (ops : List SemOp) (h : s.occ ≤ s.cap) :
    ((Semaphore.runOps ops s).occ ≤ (Semaphore.runOps ops s).cap ∧
      (Semaphore.runOps ops s).cap = s.cap) ∧
    ((s.TryAcquire).1 = true ↔ s.occ < s.cap) ∧
    ((s.TryAcquire).1 = true → (s.TryAcquire).2 = { cap := s.cap, occ := s.occ + 1 }) ∧
    ((s.TryAcquire).1 = false → (s.TryAcquire).2 = s) ∧
    ((NewSemaphore 2).TryAcquire = (true, { cap := 2, occ := 1 }) ∧
      Semaphore.TryAcquire { cap := 2, occ := 1 } = (true, { cap := 2, occ := 2 }) ∧
      Semaphore.TryAcquire { cap := 2, occ := 2 } = (false, { cap := 2, occ := 2 }) ∧
      Semaphore.Release { cap := 2, occ := 2 } = some { cap := 2, occ := 1 } ∧
      (Semaphore.TryAcquire { cap := 2, occ := 1 }).1 = true) := by
  refine ⟨Semaphore.runOps_invariant ops s h, ?_, ?_, ?_, by decide⟩ <;>
    by_cases hlt : s.occ < s.cap <;> simp [Semaphore.TryAcquire, hlt]

/-- Claim C8 witness: the invariant at capacity 2 after the scenario's
operation sequence. -/
theorem semaphore_invariant_spec_witness :
    (Semaphore.runOps
        [SemOp.tryAcquire, SemOp.tryAcquire, SemOp.tryAcquire, SemOp.release,
          SemOp.tryAcquire] (NewSemaphore 2)).occ ≤
      (Semaphore.runOps
        [SemOp.tryAcquire, SemOp.tryAcquire, SemOp.tryAcquire, SemOp.release,
          SemOp.tryAcquire] (NewSemaphore 2)).cap :=
  ((semaphore_invariant_spec (NewSemaphore 2)
      [SemOp.tryAcquire, SemOp.tryAcquire, SemOp.tryAcquire, SemOp.release,
        SemOp.tryAcquire] (by decide)).1).1

/-- Claim C9: any outcome of `AcquireContext` on a fully occupied
semaphore is `(false, s)` — in particular with an already-cancelled
context nothing is acquired — and in every outcome the returned flag is
true iff a slot was acquired (occupancy incremented), false leaving the
state unchanged. -/
theorem semaphore_acquirecontext_spec (s : Semaphore) (c : Bool) (r : Bool × Semaphore)
    (hstep : Semaphore.AcquireContextStep s c r) :
    (s.occ = s.cap → r = (false, s)) ∧
    (r.1 = true ↔ r.2 = { cap := s.cap, occ := s.occ + 1 }) ∧
    (r.1 = false → r.2 = s) := by
  cases hstep with
  | acq h =>
    refine ⟨fun heq => absurd heq (by omega), by simp, by simp⟩
  | cancel =>
    refine ⟨fun _ => rfl, ?_, fun _ => rfl⟩
    simp only [Bool.false_eq_true, false_iff]
    intro h2
    have h3 := congrArg Semaphore.occ h2
    simp at h3

/-- Claim C9 witness: an already-cancelled context on a full semaphore
of capacity 2. -/
theorem semaphore_acquirecontext_spec_witness :
    ((false, ({ cap := 2, occ := 2 } : Semaphore)) : Bool × Semaphore) =
      (false, { cap := 2, occ := 2 }) :=
  (semaphore_acquirecontext_spec { cap := 2, occ := 2 } true
      (false, { cap := 2, occ := 2 }) Semaphore.AcquireContextStep.cancel).1 rfl

end Syncs
